import Mathlib

/-!
Verification development for the HiveSim rules engine
(src/src/hivesim/game.py), a hex-grid tile-placement game engine.

The Python source is shallowly embedded: Python ints become `Int`,
Python sets of coordinate tuples become `Finset Hex`, dictionaries
become association lists (insertion-ordered, unique keys), mutation
becomes explicit state passing, and a function that can raise becomes
`Option`/`Except`.  Loops whose termination relies on finiteness of
the board are given explicit fuel, always called with provably
sufficient fuel.
-/

namespace HiveSim

/-! ## Coordinate system

`HexCoordinate` (game.py lines 11-27): three ints q, r, s.  We embed
the raw record as `Hex` and the validating constructor
(`validate_cube_coordinates`, which raises `ValueError` on
q + r + s ≠ 0) as `mkHexCoordinate`, returning `none` on rejection. -/

structure Hex where
  q : Int
  r : Int
  s : Int
deriving DecidableEq

/-- Embeds `HexCoordinate.__init__` with its `validate_cube_coordinates`
field validator: construction succeeds iff q + r + s = 0. -/
def mkHexCoordinate (q r s : Int) : Option Hex :=
  if q + r + s = 0 then some ⟨q, r, s⟩ else none

/-- Componentwise translation of a hex by an offset (the repeated
`HexCoordinate(q=self.q + dq, r=self.r + dr, s=self.s + ds)` pattern). -/
def Hex.add (h d : Hex) : Hex :=
  ⟨h.q + d.q, h.r + d.r, h.s + d.s⟩

/-- The fixed direction set used throughout game.py:
`[(1, -1, 0), (1, 0, -1), (0, 1, -1), (-1, 1, 0), (-1, 0, 1), (0, -1, 1)]`. -/
def hexDirections : List Hex :=
  [⟨1, -1, 0⟩, ⟨1, 0, -1⟩, ⟨0, 1, -1⟩, ⟨-1, 1, 0⟩, ⟨-1, 0, 1⟩, ⟨0, -1, 1⟩]

/-- Embeds `HexCoordinate.get_adjacent_hexes` (game.py lines 22-27). -/
def adjacentHexes (h : Hex) : List Hex :=
  hexDirections.map (fun d => h.add d)

/-- Embeds `MovementHelper.are_hexes_adjacent` (game.py lines 378-383):
Manhattan distance over the three cube components equals 2. -/
def areHexesAdjacent (h1 h2 : Hex) : Bool :=
  (h1.q - h2.q).natAbs + (h1.r - h2.r).natAbs + (h1.s - h2.s).natAbs = 2

/-- Cube-coordinate invariant q + r + s = 0 enforced by the
`HexCoordinate` validator. -/
def Hex.isValid (h : Hex) : Prop := h.q + h.r + h.s = 0

instance (h : Hex) : Decidable h.isValid := by
  unfold Hex.isValid; infer_instance

/-! ## Slide-gate test

`MovementHelper.can_slide_to_adjacent` (game.py lines 441-459): raises
`ValueError` on non-adjacent inputs (embedded as `none`); otherwise the
slide is blocked iff at least 2 mutual neighbors of the two hexes are
occupied. -/

/-- The set of hexes mutually adjacent to both `fromHex` and `toHex`
(the `from_neighbors.intersection(to_neighbors)` set of the source). -/
def mutualNeighbors (fromHex toHex : Hex) : Finset Hex :=
  (adjacentHexes fromHex).toFinset ∩ (adjacentHexes toHex).toFinset

/-- Embeds `MovementHelper.can_slide_to_adjacent`: `none` models the
`ValueError` raised for non-adjacent hexes. -/
def canSlideToAdjacent (fromHex toHex : Hex) (occupied : Finset Hex) :
    Option Bool :=
  if ¬ areHexesAdjacent fromHex toHex then
    none
  else
    let occupiedMutual := mutualNeighbors fromHex toHex ∩ occupied
    if 2 ≤ occupiedMutual.card then some false else some true

/-! ## Data model

`GamePiece`, `BoardState`, `GameState`, `Turn` (game.py lines 29-75,
512-575, 601-808).  Python keeps one mutable object per piece, shared
between `all_pieces`, the players' inventories and
`board_state.pieces`; the embedding therefore keeps a single
association list `heap` (the `all_pieces` id → piece dictionary) and
stores ids everywhere else, so that one update is seen by every view,
exactly as object mutation is in the source. -/

inductive Team
  | white
  | black
deriving DecidableEq

def opponent : Team → Team
  | .white => .black
  | .black => .white

inductive Location
  | offboard
  | board
  | stacked
deriving DecidableEq

inductive PieceKind
  | ant
  | spider
  | beetle
  | grasshopper
  | queenbee
  | ladybug
  | mosquito
deriving DecidableEq

/-- Embeds `GamePiece` (game.py lines 29-75).  The `icon` display string and
the uuid default are irrelevant to the rules and omitted; the class of
the Python object becomes the `kind` field. -/
structure GamePiece where
  kind : PieceKind
  team : Team
  hexCoordinates : Option Hex
  location : Location
  zLevel : Int
  piecesBelow : List String
  piecesAbove : List String
deriving DecidableEq

/-- Embeds `GamePiece.is_pinned` (game.py lines 41-43). -/
def isPinned (p : GamePiece) : Bool := ¬ p.piecesAbove = []

/-- Embeds `BoardState` (game.py lines 512-514): `pieces` is a dict keyed by
piece id (embedded as the insertion-ordered key list `pieceIds`, the
pieces themselves living in the heap), `stacks` maps coordinates to
bottom-to-top id lists. -/
structure BoardState where
  pieceIds : List String
  stackMap : List (Hex × List String)
deriving DecidableEq

/-- Embeds `GameState` (game.py lines 601-608): global turn counter, current
team, the two players' piece lists (as ids into the heap), the board,
and the consolidated `all_pieces` map (the heap itself). -/
structure GameState where
  turn : Int
  currentTeam : Team
  whiteIds : List String
  blackIds : List String
  board : BoardState
  heap : List (String × GamePiece)
deriving DecidableEq

inductive ActionType
  | place
  | move
  | forfeit
deriving DecidableEq

/-- Embeds `Turn` (game.py lines 803-808).  The Python `piece_type` string
hint (with its `'queen'`/`'queenbee'` aliases) is embedded as the
resolved `PieceKind`; `player` strings are embedded as `Team`. -/
structure Turn where
  player : Team
  pieceId : Option String
  pieceType : Option PieceKind
  actionType : ActionType
  targetCoordinates : Option Hex
deriving DecidableEq

/-- Embeds `all_pieces.get(pid)`. -/
def heapGet (gs : GameState) (pid : String) : Option GamePiece :=
  (gs.heap.find? (fun e => e.1 = pid)).map (fun e => e.2)

/-- Replace the piece stored under `pid` (object mutation in Python:
every alias observes the update). -/
def updatePiece (gs : GameState) (pid : String) (f : GamePiece → GamePiece) :
    GameState :=
  { gs with heap := gs.heap.map (fun e => if e.1 = pid then (e.1, f e.2) else e) }

/-- Iterating `board_state.pieces.items()`: the dict entries in
insertion order (ids missing from the heap cannot arise in Python,
where the dict holds the object itself; they are skipped). -/
def boardAssoc (gs : GameState) : List (String × GamePiece) :=
  gs.board.pieceIds.filterMap (fun pid => (heapGet gs pid).map (fun p => (pid, p)))

/-- Embeds `player.pieces` for a team, as (id, piece) pairs resolved through
the heap. -/
def playerPieces (gs : GameState) (team : Team) : List (String × GamePiece) :=
  (if team = .white then gs.whiteIds else gs.blackIds).filterMap
    (fun pid => (heapGet gs pid).map (fun p => (pid, p)))

/-- Embeds `GameState.get_occupied_spaces` (game.py lines 627-635): the list
of coordinates of on-board pieces in `board_state.pieces`
(duplicates possible for stacked pieces, callers build sets).
An on-board piece without coordinates would fault in Python and is
skipped here. -/
def getOccupiedSpacesGS (gs : GameState) : List Hex :=
  (boardAssoc gs).filterMap (fun e =>
    if e.2.location = .board then e.2.hexCoordinates else none)

/-- Embeds `MovementHelper.get_occupied_spaces` (game.py lines 431-439),
including its `if ground_level_only or piece.z_level == 0` condition
exactly as written in the source. -/
def getOccupiedSpacesM (gs : GameState) (exclude : Option String)
    (groundLevelOnly : Bool) : Finset Hex :=
  ((boardAssoc gs).filterMap (fun e =>
    if exclude = some e.1 then none
    else if e.2.location = .board ∧ (groundLevelOnly ∨ e.2.zLevel = 0) then
      e.2.hexCoordinates
    else none)).toFinset

/-- Embeds `GameState.get_available_spaces` (game.py lines 637-654): the
center hex for an empty board dict, otherwise all unoccupied neighbors
of occupied hexes (a Python set; its iteration order is irrelevant to
every consumer, which only tests emptiness or iterates exhaustively). -/
def getAvailableSpaces (gs : GameState) : Finset Hex :=
  if gs.board.pieceIds = [] then {⟨0, 0, 0⟩}
  else
    let occupied := (getOccupiedSpacesGS gs).toFinset
    let adjacent := occupied.biUnion (fun c => (adjacentHexes c).toFinset)
    adjacent \ occupied

/-- Embeds `GameState.get_queen` (game.py lines 686-691): first queen of the
team in `all_pieces` iteration order. -/
def getQueen (gs : GameState) (team : Team) : Option GamePiece :=
  ((gs.heap).find? (fun e => e.2.kind = .queenbee ∧ e.2.team = team)).map
    (fun e => e.2)

/-! ## Movement helpers over the board -/

/-- Membership-in-occupied test for one neighbor of a hex (the
`has_neighbor` checks of the source). -/
def hasNeighborB (c : Hex) (occ : Finset Hex) : Bool :=
  (adjacentHexes c).any (fun n => decide (n ∈ occ))

/-- The gate test as used by callers that guarantee adjacency (the
`ValueError` branch cannot fire there; inside the Spider search it is
caught and treated as a failed check, embedded as `false`). -/
def slideOkBool (c a : Hex) (occ : Finset Hex) : Bool :=
  match canSlideToAdjacent c a occ with
  | some b => b
  | none => false

/-- Embeds `GameState.get_valid_slide_positions` (game.py lines 741-774). -/
def validSlidePositions (current : Hex) (occ : Finset Hex) : List Hex :=
  (adjacentHexes current).filter (fun adj =>
    decide (adj ∉ occ) && slideOkBool current adj occ && hasNeighborB adj occ)

/-- Generic breadth-first closure with explicit fuel: pop the head of
the queue, enqueue its not-yet-visited successors (deduplicated, as
Python set insertion is), recurse.  Every call site passes fuel
provably larger than |queue| plus the number of reachable unvisited
nodes, so the fuel never runs out. -/
def bfsGen {α : Type} [DecidableEq α] (next : α → List α) :
    Nat → List α → Finset α → Finset α
  | 0, _, visited => visited
  | _ + 1, [], visited => visited
  | fuel + 1, cur :: rest, visited =>
    let news := ((next cur).filter (fun y => decide (y ∉ visited))).dedup
    bfsGen next fuel (rest ++ news) (visited ∪ news.toFinset)

/-- The on-board (id, coordinate) pairs of `board_state.pieces`,
skipping an excluded piece — the data from which
`hive_stays_connected` builds `pieces_on_board` and `coord_to_pid`
(game.py lines 472-485). -/
def hiveEntries (gs : GameState) (exclude : Option String) :
    List (String × Hex) :=
  (boardAssoc gs).filterMap (fun e =>
    if ¬ e.2.location = .board then none
    else if exclude = some e.1 then none
    else e.2.hexCoordinates.map (fun h => (e.1, h)))

/-- The `coord_to_pid` dict: a coordinate maps to the LAST piece
registered at it (later dict writes overwrite earlier ones), hence the
`reverse`. -/
def coordPid (l : List (String × Hex)) (c : Hex) : Option String :=
  (l.reverse.find? (fun e => e.2 = c)).map (fun e => e.1)

/-- Neighbor ids of a piece in the connectivity graph: look the piece
up in `pieces_on_board`, then look each adjacent hex up in
`coord_to_pid` (game.py lines 495-507). -/
def hiveSucc (l : List (String × Hex)) (pid : String) : List String :=
  match l.find? (fun e => e.1 = pid) with
  | none => []
  | some e => (adjacentHexes e.2).filterMap (fun adj => coordPid l adj)

/-- Embeds `MovementHelper.hive_stays_connected` (game.py lines 467-510):
breadth-first traversal from the first on-board piece; connected iff
every piece is visited, trivially true with at most one piece.
`exclude = none` embeds a piece id matching no piece. -/
def hiveStaysConnected (exclude : Option String) (gs : GameState) : Bool :=
  let l := hiveEntries gs exclude
  if l.length ≤ 1 then true
  else
    match l with
    | [] => true
    | e0 :: _ =>
      let visited := bfsGen (hiveSucc l) (l.length + 1) [e0.1] {e0.1}
      visited.card = l.length

/-- Embeds `hive_stays_connected` evaluated with no piece excluded. -/
def hiveConnectedAll (gs : GameState) : Bool := hiveStaysConnected none gs

/-- The occupied set built inline by `check_freedom_of_movement` and
`get_path` (all on-board pieces except the moving one, no z filter). -/
def occupiedExcept (gs : GameState) (pid : String) : Finset Hex :=
  ((hiveEntries gs (some pid)).map (fun e => e.2)).toFinset

/-- Existence of a sliding path, the observable outcome of
`MovementHelper.get_path` (game.py lines 386-429): its A* search pops
every hex reachable through `get_valid_slide_positions` until the goal
is found, so a path is returned iff the target is the start or lies in
the slide closure of the start.  The priority order only affects which
path is found, never whether one is.  Fuel: every reachable hex is the
start or a neighbor of an occupied hex, so at most `6·|occ| + 1` nodes
enter the queue. -/
def hexPathExists (occ : Finset Hex) (start target : Hex) : Bool :=
  let closure := bfsGen (fun c => validSlidePositions c occ)
    (6 * occ.card + 2) [start] {start}
  decide (target ∈ closure)

/-- Embeds `GameState.check_freedom_of_movement` (game.py lines 776-795). -/
def checkFreedomOfMovement (gs : GameState) (start stop : Hex)
    (pid : String) : Bool :=
  if start = stop then true
  else
    let occupied := occupiedExcept gs pid
    if areHexesAdjacent start stop then
      match canSlideToAdjacent start stop occupied with
      | some b => b
      | none => false
    else hexPathExists occupied start stop

/-! ## Per-piece legal-move generation -/

/-- Embeds `QueenBee.get_valid_moves` (game.py lines 313-346). -/
def queenMoves (gs : GameState) (pid : String) (p : GamePiece) : List Hex :=
  if ¬ p.location = .board then []
  else if isPinned p then []
  else if ¬ hiveStaysConnected (some pid) gs then []
  else
    match p.hexCoordinates with
    | none => []
    | some pc =>
      let occupied := getOccupiedSpacesM gs (some pid) true
      (adjacentHexes pc).filter (fun adj =>
        decide (adj ∉ occupied) && checkFreedomOfMovement gs pc adj pid)

/-- Embeds `Beetle.get_valid_moves` (game.py lines 213-244): with the hive
check failed only climbs are offered; otherwise climbs plus slides
passing freedom of movement. -/
def beetleMoves (gs : GameState) (pid : String) (p : GamePiece) : List Hex :=
  if ¬ p.location = .board then []
  else if isPinned p then []
  else
    match p.hexCoordinates with
    | none => []
    | some pc =>
      let occupied := getOccupiedSpacesM gs (some pid) false
      if ¬ hiveStaysConnected (some pid) gs then
        (adjacentHexes pc).filter (fun adj => decide (adj ∈ occupied))
      else
        (adjacentHexes pc).filter (fun adj =>
          decide (adj ∈ occupied) || checkFreedomOfMovement gs pc adj pid)

/-- The `while next_hex in occupied` scan of `Grasshopper.get_valid_moves`:
step along direction `d` until an unoccupied hex is reached.  Fuel
`|occ| + 1` always suffices because the ray cells are pairwise
distinct. -/
def rayScan (occ : Finset Hex) (d : Hex) : Nat → Hex → Option Hex
  | 0, _ => none
  | fuel + 1, h => if h ∈ occ then rayScan occ d fuel (h.add d) else some h

/-- One direction of `Grasshopper.get_valid_moves` (game.py lines
277-294): a move exists iff the immediate neighbor is occupied
(`jumped`), landing on the first unoccupied hex along the ray. -/
def grasshopperDirMove (occ : Finset Hex) (pc d : Hex) : Option Hex :=
  let first := pc.add d
  if first ∈ occ then rayScan occ d (occ.card + 1) first else none

/-- Embeds `Grasshopper.get_valid_moves` (game.py lines 262-296). -/
def grasshopperMoves (gs : GameState) (pid : String) (p : GamePiece) :
    List Hex :=
  if ¬ p.location = .board then []
  else if isPinned p then []
  else if ¬ hiveStaysConnected (some pid) gs then []
  else
    match p.hexCoordinates with
    | none => []
    | some pc =>
      let occupied := getOccupiedSpacesM gs (some pid) true
      hexDirections.filterMap (fun d => grasshopperDirMove occupied pc d)

/-- The recursive `dfs` of `Spider.get_valid_moves` (game.py lines
106-142), fuel counting the remaining depth (3 at the root): at fuel 0
record the current hex (unless it is the start); otherwise recurse
into each adjacent hex that is unoccupied, unvisited on this path,
slideable-to (`ValueError` caught as a failed check) and adjacent to
the hive.  The Python `visited.add`/`remove` backtracking is the
`adj :: visited` path extension. -/
def spiderDfs (occ : Finset Hex) (start : Hex) :
    Nat → Hex → List Hex → Finset Hex
  | 0, current, _ => if current = start then ∅ else {current}
  | fuel + 1, current, visited =>
    (adjacentHexes current).foldl (fun acc adj =>
      if adj ∈ occ then acc
      else if adj ∈ visited then acc
      else if ¬ slideOkBool current adj occ then acc
      else if ¬ hasNeighborB adj occ then acc
      else acc ∪ spiderDfs occ start fuel adj (adj :: visited)) ∅

/-- Embeds `Spider.get_valid_moves` (game.py lines 86-144): the results set
of the depth-3 bounded DFS. -/
def spiderMoves (gs : GameState) (pid : String) (p : GamePiece) :
    Finset Hex :=
  if ¬ p.location = .board then ∅
  else if isPinned p then ∅
  else if ¬ hiveStaysConnected (some pid) gs then ∅
  else
    match p.hexCoordinates with
    | none => ∅
    | some start =>
      let occupied := getOccupiedSpacesM gs (some pid) true
      spiderDfs occupied start 3 start [start]

/-- Embeds `Ant.get_valid_moves` (game.py lines 160-196): breadth-first
closure of the valid-slide relation, minus the start. -/
def antMoves (gs : GameState) (pid : String) (p : GamePiece) : Finset Hex :=
  if ¬ p.location = .board then ∅
  else if isPinned p then ∅
  else if ¬ hiveStaysConnected (some pid) gs then ∅
  else
    match p.hexCoordinates with
    | none => ∅
    | some pc =>
      let occupied := getOccupiedSpacesM gs (some pid) true
      let closure := bfsGen (fun c => validSlidePositions c occupied)
        (6 * occupied.card + 2) [pc] {pc}
      closure.erase pc

/-- Embeds `can_move_to` dispatch: membership of the target in the piece's
own legal-destination set.  Ladybug and Mosquito inherit the abstract
`get_valid_moves` (returns `None`, over which Python cannot iterate):
no destination is ever legal. -/
def canMoveTo (gs : GameState) (pid : String) (p : GamePiece) (tc : Hex) :
    Bool :=
  match p.kind with
  | .queenbee => tc ∈ queenMoves gs pid p
  | .spider => tc ∈ spiderMoves gs pid p
  | .ant => tc ∈ antMoves gs pid p
  | .beetle => tc ∈ beetleMoves gs pid p
  | .grasshopper => tc ∈ grasshopperMoves gs pid p
  | .ladybug => false
  | .mosquito => false

/-! ## Turn validation -/

/-- One constructor per distinct `raise` site of the source.  `crash`
stands for the non-`ValueError` faults (attribute or key errors on
corrupt states) that Python would not catch as validation failures. -/
inductive PErr
  | placementNeedsPiece
  | noAvailablePiece
  | firstNotCenter
  | notAdjacentToHive
  | targetOccupied
  | notAdjacentToOwn
  | adjacentToOpponent
  | pieceNotFound
  | pieceAlreadyOnBoard
  | mustPlaceQueenNow
  | queenDeadlineMissed
  | movementRequiresId
  | movePieceNotFound
  | wrongOwner
  | notOnBoard
  | pinnedPiece
  | moveQueenDeadline
  | cannotMoveThere
  | crash
deriving DecidableEq

def exceptOk {ε α : Type} : Except ε α → Bool
  | .ok _ => true
  | .error _ => false

instance {ε α : Type} [DecidableEq ε] [DecidableEq α] :
    DecidableEq (Except ε α) := fun x y =>
  match x, y with
  | .ok a, .ok b =>
    if h : a = b then isTrue (congrArg _ h)
    else isFalse (fun hc => h (Except.ok.inj hc))
  | .ok _, .error _ => isFalse (fun hc => Except.noConfusion hc)
  | .error _, .ok _ => isFalse (fun hc => Except.noConfusion hc)
  | .error e, .error f =>
    if h : e = f then isTrue (congrArg _ h)
    else isFalse (fun hc => h (Except.error.inj hc))

/-- Hexes adjacent to a team's on-board pieces (the `player_adjacent`
and `opponent_adjacent` sets of `validate_placement`, game.py lines
907-919; coordinates read through the shared piece objects). -/
def playerAdjacent (gs : GameState) (team : Team) : Finset Hex :=
  ((playerPieces gs team).filterMap (fun e =>
    if e.2.location = .board then e.2.hexCoordinates else none)).foldr
    (fun c acc => acc ∪ (adjacentHexes c).toFinset) ∅

/-- The tail of `Turn.validate_placement` after the target checks
(game.py lines 928-953): the resolved piece must exist and be
off-board, then the queen-by-turn-4 rule (`player_turn_number == 3`
forces placing the queen, `> 3` with the queen off-board always
raises).  The `player_turn_number` local of the source is written out
inline. -/
def validatePlacementFinal (t1 : Turn) (gs : GameState) : Except PErr Turn :=
  match t1.pieceId with
  | none => .error .pieceNotFound
  | some pid =>
    match heapGet gs pid with
    | none => .error .pieceNotFound
    | some p =>
      if ¬ p.location = .offboard then .error .pieceAlreadyOnBoard
      else
        match getQueen gs t1.player with
        | none => .error .crash
        | some q =>
          if (if t1.player = .white then gs.turn / 2
              else (gs.turn - 1) / 2) = 3 ∧ q.location = .offboard then
            if ¬ p.kind = .queenbee then .error .mustPlaceQueenNow
            else .ok t1
          else if (if t1.player = .white then gs.turn / 2
              else (gs.turn - 1) / 2) > 3 ∧ q.location = .offboard then
            .error .queenDeadlineMissed
          else .ok t1

/-- The body of `Turn.validate_placement` after the piece id has been
resolved (game.py lines 875-953), checks in source order: turn 0 must
target the center (and then succeeds immediately); target adjacent to
an occupied hex; target unoccupied; from turn > 1, adjacent to an own
piece and not adjacent to any opponent piece; then the checks of
`validatePlacementFinal`. -/
def validatePlacementCore (t1 : Turn) (gs : GameState) : Except PErr Turn :=
  if gs.turn = 0 then
    if ¬ t1.targetCoordinates = some ⟨0, 0, 0⟩ then .error .firstNotCenter
    else .ok t1
  else
    match t1.targetCoordinates with
    | none => .error .crash
    | some tc =>
      if ((adjacentHexes tc).toFinset ∩
          (getOccupiedSpacesGS gs).toFinset).card = 0 then
        .error .notAdjacentToHive
      else if tc ∈ (getOccupiedSpacesGS gs).toFinset then
        .error .targetOccupied
      else if gs.turn > 1 then
        if tc ∉ playerAdjacent gs t1.player then .error .notAdjacentToOwn
        else if tc ∈ playerAdjacent gs (opponent t1.player) then
          .error .adjacentToOpponent
        else validatePlacementFinal t1 gs
      else validatePlacementFinal t1 gs

/-- Embeds `Turn.validate_placement` (game.py lines 841-953), checks in
source order: resolve the piece id from the type hint (first matching
off-board piece of that team and type), then run the placement checks
of `validatePlacementCore`. -/
def validatePlacement (t : Turn) (gs : GameState) : Except PErr Turn :=
  match
    (match t.pieceId with
      | some _ => Except.ok t
      | none =>
        match t.pieceType with
        | none => Except.error PErr.placementNeedsPiece
        | some k =>
          match (playerPieces gs t.player).find? (fun (e : String × GamePiece) =>
              e.2.kind = k ∧ e.2.location = Location.offboard) with
          | none => Except.error PErr.noAvailablePiece
          | some e => Except.ok { t with pieceId := some e.1 }) with
  | .error e => .error e
  | .ok t1 => validatePlacementCore t1 gs

/-- Embeds `Turn.validate_movement` (game.py lines 810-839). -/
def validateMovement (t : Turn) (gs : GameState) : Except PErr Turn :=
  match t.pieceId with
  | none => .error .movementRequiresId
  | some pid =>
    match heapGet gs pid with
    | none => .error .movePieceNotFound
    | some p =>
      if ¬ p.team = t.player then .error .wrongOwner
      else if ¬ p.location = .board then .error .notOnBoard
      else if isPinned p then .error .pinnedPiece
      else
        match getQueen gs t.player with
        | none => .error .crash
        | some q =>
          let ptn := if t.player = .white then gs.turn / 2
            else (gs.turn - 1) / 2
          if ptn ≥ 4 ∧ q.location = .offboard then .error .moveQueenDeadline
          else
            match t.targetCoordinates with
            | none => .error .crash
            | some tc =>
              if canMoveTo gs pid p tc then .ok t else .error .cannotMoveThere

/-! ## Win and deadlock detection -/

/-- One side of `GameState.check_win_condition` (game.py lines
670-684): the team's first queen (scanning the player's inventory) is
on the board with all 6 adjacent hexes occupied. -/
def queenSurroundedCode (gs : GameState) (team : Team) : Bool :=
  match (playerPieces gs team).find? (fun e => e.2.kind = .queenbee) with
  | none => false
  | some e =>
    if e.2.location = .board then
      match e.2.hexCoordinates with
      | none => false
      | some c =>
        (adjacentHexes c).all (fun n =>
          decide (n ∈ (getOccupiedSpacesGS gs).toFinset))
    else false

/-- Embeds `GameState.check_win_condition`: the white queen is tested first;
if surrounded, black wins, otherwise the black queen is tested. -/
def checkWinCondition (gs : GameState) : Option Team :=
  if queenSurroundedCode gs .white then some .black
  else if queenSurroundedCode gs .black then some .white
  else none

/-- Embeds `GameState.check_queen_placement_loss` (game.py lines 693-723):
from the player's 4th turn with queen off-board, try a hypothetical
queen placement at each available space; if every attempt raises, the
opponent wins.  (Python catches `ValueError`; validation faults on
corrupt states are modelled as caught too, all claims about this
function exclude such states.) -/
def checkQueenPlacementLoss (gs : GameState) : Option Team :=
  let ptn := gs.turn / 2
  if ptn < 4 then none
  else
    match getQueen gs gs.currentTeam with
    | none => none
    | some q =>
      if ¬ q.location = .offboard then none
      else
        if decide (∃ space ∈ getAvailableSpaces gs,
            exceptOk (validatePlacement
              { player := gs.currentTeam
                pieceId := none
                pieceType := some .queenbee
                actionType := .place
                targetCoordinates := some space } gs) = true) then none
        else some (opponent gs.currentTeam)

/-! ## Applying a turn -/

def stacksLookup (st : List (Hex × List String)) (c : Hex) :
    Option (List String) :=
  (st.find? (fun e => e.1 = c)).map (fun e => e.2)

def stacksSet (st : List (Hex × List String)) (c : Hex) (l : List String) :
    List (Hex × List String) :=
  if (st.find? (fun e => e.1 = c)).isSome then
    st.map (fun e => if e.1 = c then (c, l) else e)
  else st ++ [(c, l)]

def stacksErase (st : List (Hex × List String)) (c : Hex) :
    List (Hex × List String) :=
  st.filter (fun e => decide (¬ e.1 = c))

/-- Register `pid` in the `board_state.pieces` dict (a dict write
keeps the position of an existing key, appends a new one). -/
def registerBoardId (gs : GameState) (pid : String) : GameState :=
  { gs with board := { gs.board with
      pieceIds := if pid ∈ gs.board.pieceIds then gs.board.pieceIds
        else gs.board.pieceIds ++ [pid] } }

/-- Embeds `BoardState.add_piece` (game.py lines 516-538).  If the target
coordinate already has a stack, the new piece goes on top (z-level =
prior stack length, below-list = prior stack, the prior top piece is
told about the newcomer); otherwise a fresh one-piece stack is made.
An empty stale stack list (impossible in Python, which would fault on
`stack[-1]`) takes the fresh branch. -/
def addPiece (gs : GameState) (pid : String) (coords : Hex) : GameState :=
  let gs1 :=
    match stacksLookup gs.board.stackMap coords with
    | some stack =>
      match stack.getLast? with
      | some topId =>
        let gsA := updatePiece gs pid (fun p =>
          { p with
            hexCoordinates := some coords
            location := .board
            zLevel := (stack.length : Int)
            piecesBelow := stack })
        let gsB := updatePiece gsA topId (fun p =>
          { p with piecesAbove := p.piecesAbove ++ [pid] })
        { gsB with board := { gsB.board with
            stackMap := stacksSet gsB.board.stackMap coords (stack ++ [pid]) } }
      | none =>
        let gsA := updatePiece gs pid (fun p =>
          { p with
            hexCoordinates := some coords
            location := .board
            zLevel := 0
            piecesBelow := [] })
        { gsA with board := { gsA.board with
            stackMap := stacksSet gsA.board.stackMap coords [pid] } }
    | none =>
      let gsA := updatePiece gs pid (fun p =>
        { p with
          hexCoordinates := some coords
          location := .board
          zLevel := 0
          piecesBelow := [] })
      { gsA with board := { gsA.board with
          stackMap := stacksSet gsA.board.stackMap coords [pid] } }
  registerBoardId gs1 pid

/-- Embeds `BoardState.move_piece` (game.py lines 540-564): remove the piece
from its old stack (neighbors in the stack forget it, pieces above
drop one z-level), then add it at the destination. -/
def movePiece (gs : GameState) (pid : String) (newCoords : Hex) : GameState :=
  match heapGet gs pid with
  | none => gs
  | some p =>
    match p.hexCoordinates with
    | none => gs
    | some oldC =>
      let gs1 :=
        match stacksLookup gs.board.stackMap oldC with
        | some stack =>
          let stack1 := stack.erase pid
          let gsA :=
            if stack1 = [] then
              { gs with board := { gs.board with
                  stackMap := stacksErase gs.board.stackMap oldC } }
            else
              { gs with board := { gs.board with
                  stackMap := stacksSet gs.board.stackMap oldC stack1 } }
          let gsB := p.piecesBelow.foldl (fun acc bid =>
            updatePiece acc bid (fun bp =>
              { bp with piecesAbove := bp.piecesAbove.erase pid })) gsA
          p.piecesAbove.foldl (fun acc aid =>
            updatePiece acc aid (fun ap =>
              { ap with
                piecesBelow := ap.piecesBelow.erase pid
                zLevel := ap.zLevel - 1 })) gsB
        | none => gs
      addPiece gs1 pid newCoords

/-- Embeds `Game` (game.py lines 955-957). -/
structure Game where
  gameState : GameState
  history : List Turn
deriving DecidableEq

/-- The common tail of `Game.apply_turn` (game.py lines 987-992):
append to history, evaluate `check_win_condition` (its result is
discarded by the source), advance the turn counter, flip the team,
return the piece id. -/
def finishTurn (g : Game) (t : Turn) : Game × Except PErr (Option String) :=
  let gs := g.gameState
  let gs1 := { gs with
    turn := gs.turn + 1
    currentTeam := if gs.currentTeam = .white then .black else .white }
  ({ gameState := gs1, history := g.history ++ [t] }, .ok t.pieceId)

/-- Embeds `Game.apply_turn` (game.py lines 959-992): validate, then mutate
the board, then finish.  A validation error propagates before any
mutation, leaving the game untouched. -/
def applyTurn (g : Game) (t : Turn) : Game × Except PErr (Option String) :=
  match t.actionType with
  | .place =>
    match validatePlacement t g.gameState with
    | .error e => (g, .error e)
    | .ok t1 =>
      match t1.pieceId with
      | none => (g, .error .crash)
      | some pid =>
        match heapGet g.gameState pid with
        | none => (g, .error .crash)
        | some _ =>
          match t1.targetCoordinates with
          | none => (g, .error .crash)
          | some tc =>
            let gs1 := updatePiece g.gameState pid (fun p =>
              { p with hexCoordinates := some tc, location := .board })
            let gs2 := addPiece gs1 pid tc
            finishTurn { g with gameState := gs2 } t1
  | .move =>
    match validateMovement t g.gameState with
    | .error e => (g, .error e)
    | .ok t1 =>
      match t1.pieceId with
      | none => (g, .error .crash)
      | some pid =>
        match heapGet g.gameState pid with
        | none => (g, .error .crash)
        | some _ =>
          match t1.targetCoordinates with
          | none => (g, .error .crash)
          | some tc =>
            let gs2 := movePiece g.gameState pid tc
            finishTurn { g with gameState := gs2 } t1
  | .forfeit => finishTurn g t

/-! ## Specification-side predicates

Written from the claims' wording, to be compared with the code-side
definitions above. -/

/-- The claim-side surround condition for `check_win_condition`: the
team's queen (the first queen bee in the player's inventory) is on the
board and every one of the 6 hexes adjacent to it is occupied. -/
def queenSurroundedP (gs : GameState) (team : Team) : Prop :=
  ∃ e, (playerPieces gs team).find? (fun x => x.2.kind = .queenbee) = some e ∧
    e.2.location = .board ∧
    ∃ c, e.2.hexCoordinates = some c ∧
      ∀ n ∈ adjacentHexes c, n ∈ getOccupiedSpacesGS gs

/-- One slide step of a Spider path, per the claim: the next hex is
adjacent to the current one, unoccupied (spider excluded from
occupancy), not previously visited on this path, passes the slide-gate
test relative to the current hex, and is adjacent to at least one
occupied hex. -/
def spiderStepOk (occ : Finset Hex) (visited : List Hex) (cur nxt : Hex) :
    Prop :=
  nxt ∈ adjacentHexes cur ∧ nxt ∉ occ ∧ nxt ∉ visited ∧
    slideOkBool cur nxt occ = true ∧ hasNeighborB nxt occ = true

/-- The claim-side Spider destination set: endpoints of 3-step
non-self-intersecting slide paths from `start`.  A hex reachable only
by paths of length 1 or 2 does not satisfy this predicate. -/
def spiderPath3 (occ : Finset Hex) (start e : Hex) : Prop :=
  ∃ a b, spiderStepOk occ [start] start a ∧
    spiderStepOk occ [a, start] a b ∧
    spiderStepOk occ [b, a, start] b e

/-- The k-th cell (0-based) of the straight ray from `base` in
direction `d`: `base` translated k times by `d`. -/
def rayCell (base d : Hex) (k : Nat) : Hex :=
  ⟨base.q + k * d.q, base.r + k * d.r, base.s + k * d.s⟩

/-! ## Concrete states used as failing inputs and witnesses -/

/-- A black ant at the origin. -/
def exAnt : GamePiece :=
  { kind := .ant, team := .black, hexCoordinates := some ⟨0, 0, 0⟩,
    location := .board, zLevel := 0, piecesBelow := [], piecesAbove := [] }

/-- A white queen adjacent to the ant. -/
def exQueen : GamePiece :=
  { kind := .queenbee, team := .white, hexCoordinates := some ⟨1, -1, 0⟩,
    location := .board, zLevel := 0, piecesBelow := [], piecesAbove := [] }

/-- Two-piece board: ant at the origin, white queen at (1,-1,0);
turn counter 6, white to move.  The hive is connected. -/
def exC1State : GameState :=
  { turn := 6, currentTeam := .white, whiteIds := ["q"], blackIds := ["a"],
    board := { pieceIds := ["a", "q"],
               stackMap := [(⟨0, 0, 0⟩, ["a"]), (⟨1, -1, 0⟩, ["q"])] },
    heap := [("a", exAnt), ("q", exQueen)] }

def exC1Game : Game := { gameState := exC1State, history := [] }

/-- The queen slides from (1,-1,0) to (2,-2,0), away from the ant:
accepted by validation (removing the queen leaves one piece, trivially
connected; the slide is unobstructed) yet the resulting board is
disconnected. -/
def exC1Turn : Turn :=
  { player := .white, pieceId := some "q", pieceType := none,
    actionType := .move, targetCoordinates := some ⟨2, -2, 0⟩ }

/-- A placement turn targeting a hex far from the hive (rejected). -/
def exC10Turn : Turn :=
  { player := .white, pieceId := some "q", pieceType := none,
    actionType := .place, targetCoordinates := some ⟨5, -5, 0⟩ }

/-- An ant of the given team at the given hex, on board at ground
level. -/
def antAt (team : Team) (c : Hex) : GamePiece :=
  { kind := .ant, team := team, hexCoordinates := some c,
    location := .board, zLevel := 0, piecesBelow := [], piecesAbove := [] }

/-- A stacked pair: ant "a" at ground level under beetle "b" at
z-level 1, both at the origin (the configuration produced by a beetle
climb). -/
def exC6State : GameState :=
  { turn := 4, currentTeam := .white, whiteIds := ["b"], blackIds := ["a"],
    board := { pieceIds := ["a", "b"],
               stackMap := [(⟨0, 0, 0⟩, ["a", "b"])] },
    heap := [("a", { kind := .ant, team := .black,
                     hexCoordinates := some ⟨0, 0, 0⟩, location := .board,
                     zLevel := 0, piecesBelow := [], piecesAbove := ["b"] }),
             ("b", { kind := .beetle, team := .white,
                     hexCoordinates := some ⟨0, 0, 0⟩, location := .board,
                     zLevel := 1, piecesBelow := ["a"], piecesAbove := [] })] }

/-- A queen bee of the given team at the given hex. -/
def queenAt (team : Team) (c : Hex) : GamePiece :=
  { kind := .queenbee, team := team, hexCoordinates := some c,
    location := .board, zLevel := 0, piecesBelow := [], piecesAbove := [] }

/-- Double surround: the white queen at the origin and the black queen
at (1,-1,0) are both completely surrounded. -/
def exC2State : GameState :=
  { turn := 10, currentTeam := .white,
    whiteIds := ["wq", "p6", "p7", "p8"],
    blackIds := ["bq", "p1", "p2", "p3", "p4", "p5"],
    board := { pieceIds := ["wq", "bq", "p1", "p2", "p3", "p4", "p5",
                            "p6", "p7", "p8"],
               stackMap := [(⟨0, 0, 0⟩, ["wq"]), (⟨1, -1, 0⟩, ["bq"]),
                            (⟨1, 0, -1⟩, ["p1"]), (⟨0, 1, -1⟩, ["p2"]),
                            (⟨-1, 1, 0⟩, ["p3"]), (⟨-1, 0, 1⟩, ["p4"]),
                            (⟨0, -1, 1⟩, ["p5"]), (⟨2, -2, 0⟩, ["p6"]),
                            (⟨2, -1, -1⟩, ["p7"]), (⟨1, -2, 1⟩, ["p8"])] },
    heap := [("wq", queenAt .white ⟨0, 0, 0⟩),
             ("bq", queenAt .black ⟨1, -1, 0⟩),
             ("p1", antAt .black ⟨1, 0, -1⟩),
             ("p2", antAt .black ⟨0, 1, -1⟩),
             ("p3", antAt .black ⟨-1, 1, 0⟩),
             ("p4", antAt .black ⟨-1, 0, 1⟩),
             ("p5", antAt .black ⟨0, -1, 1⟩),
             ("p6", antAt .white ⟨2, -2, 0⟩),
             ("p7", antAt .white ⟨2, -1, -1⟩),
             ("p8", antAt .white ⟨1, -2, 1⟩)] }

/-- A white queen still off-board. -/
def exOffboardQueen : GamePiece :=
  { kind := .queenbee, team := .white, hexCoordinates := none,
    location := .offboard, zLevel := 0, piecesBelow := [], piecesAbove := [] }

/-- Turn 8, white to move, white queen never placed: the white player
is past the queen-placement deadline. -/
def exC9State : GameState :=
  { turn := 8, currentTeam := .white, whiteIds := ["wq"], blackIds := ["a"],
    board := { pieceIds := ["a"], stackMap := [(⟨0, 0, 0⟩, ["a"])] },
    heap := [("wq", exOffboardQueen), ("a", exAnt)] }

/-- A white spider at the origin next to a single black ant at
(1,-1,0); the spider is free to move (removing it leaves one piece). -/
def exSpider : GamePiece :=
  { kind := .spider, team := .white, hexCoordinates := some ⟨0, 0, 0⟩,
    location := .board, zLevel := 0, piecesBelow := [], piecesAbove := [] }

def exC4State : GameState :=
  { turn := 6, currentTeam := .white, whiteIds := ["s"],
    blackIds := ["a1"],
    board := { pieceIds := ["s", "a1"],
               stackMap := [(⟨0, 0, 0⟩, ["s"]), (⟨1, -1, 0⟩, ["a1"])] },
    heap := [("s", exSpider), ("a1", antAt .black ⟨1, -1, 0⟩)] }

/-- A white grasshopper at the origin with a black ant on its
(1,-1,0) neighbor and another at (2,-2,0): jumping in direction
(1,-1,0) lands at (3,-3,0). -/
def exGrasshopper : GamePiece :=
  { kind := .grasshopper, team := .white, hexCoordinates := some ⟨0, 0, 0⟩,
    location := .board, zLevel := 0, piecesBelow := [], piecesAbove := [] }

def exC5State : GameState :=
  { turn := 6, currentTeam := .white, whiteIds := ["g"],
    blackIds := ["a1", "a2"],
    board := { pieceIds := ["g", "a1", "a2"],
               stackMap := [(⟨0, 0, 0⟩, ["g"]), (⟨1, -1, 0⟩, ["a1"]),
                            (⟨2, -2, 0⟩, ["a2"])] },
    heap := [("g", exGrasshopper), ("a1", antAt .black ⟨1, -1, 0⟩),
             ("a2", antAt .black ⟨2, -2, 0⟩)] }

/-- Board for the C7 witness: turn 4, a white ant at the origin and a
black ant at (0, 2, -2), far enough apart that placements adjacent to
white are not adjacent to black. -/
def exC7State : GameState :=
  { turn := 4, currentTeam := .white, whiteIds := ["w1", "wq"],
    blackIds := ["b1"],
    board := { pieceIds := ["w1", "b1"],
               stackMap := [(⟨0, 0, 0⟩, ["w1"]), (⟨0, 2, -2⟩, ["b1"])] },
    heap := [("w1", antAt .white ⟨0, 0, 0⟩),
             ("b1", antAt .black ⟨0, 2, -2⟩),
             ("wq", exOffboardQueen)] }

/-- A placement by white at (1,-1,0): adjacent to white's own ant at
the origin, not adjacent to the black ant. -/
def exC7Turn : Turn :=
  { player := .white, pieceId := some "wq", pieceType := none,
    actionType := .place, targetCoordinates := some ⟨1, -1, 0⟩ }

/-! ## Supporting geometry lemmas -/

theorem Hex.add_left_cancel {h : Hex} {a b : Hex}
    (hab : h.add a = h.add b) : a = b := by
  cases a; cases b; cases h
  simp only [Hex.add, Hex.mk.injEq] at hab ⊢
  omega

theorem mem_adjacentHexes {h x : Hex} :
    x ∈ adjacentHexes h ↔ ∃ d ∈ hexDirections, x = h.add d := by
  simp only [adjacentHexes, List.mem_map]
  constructor
  · rintro ⟨d, hd, rfl⟩; exact ⟨d, hd, rfl⟩
  · rintro ⟨d, hd, rfl⟩; exact ⟨d, hd, rfl⟩

/-- For valid cube coordinates, the Manhattan-distance-2 adjacency test
holds exactly when the difference is one of the six fixed directions. -/
theorem adjacent_iff_direction {h1 h2 : Hex}
    (hv1 : h1.isValid) (hv2 : h2.isValid) :
    areHexesAdjacent h1 h2 = true ↔ ∃ d ∈ hexDirections, h2 = h1.add d := by
  unfold Hex.isValid at hv1 hv2
  constructor
  · intro hadj
    obtain ⟨a, b, c⟩ := h1
    obtain ⟨d, e, f⟩ := h2
    simp only at hv1 hv2
    unfold areHexesAdjacent at hadj
    simp only [decide_eq_true_eq] at hadj
    have hu : d - a = -1 ∨ d - a = 0 ∨ d - a = 1 := by omega
    have hw : e - b = -1 ∨ e - b = 0 ∨ e - b = 1 := by omega
    have hx : f - c = -1 ∨ f - c = 0 ∨ f - c = 1 := by omega
    have hcases : (d - a = 1 ∧ e - b = -1 ∧ f - c = 0) ∨
        (d - a = 1 ∧ e - b = 0 ∧ f - c = -1) ∨
        (d - a = 0 ∧ e - b = 1 ∧ f - c = -1) ∨
        (d - a = -1 ∧ e - b = 1 ∧ f - c = 0) ∨
        (d - a = -1 ∧ e - b = 0 ∧ f - c = 1) ∨
        (d - a = 0 ∧ e - b = -1 ∧ f - c = 1) := by
      rcases hu with h | h | h <;> rcases hw with h2 | h2 | h2 <;>
        rcases hx with h3 | h3 | h3 <;> omega
    rcases hcases with h | h | h | h | h | h
    · exact ⟨⟨1, -1, 0⟩, by decide,
        by simp only [Hex.add, Hex.mk.injEq]; omega⟩
    · exact ⟨⟨1, 0, -1⟩, by decide,
        by simp only [Hex.add, Hex.mk.injEq]; omega⟩
    · exact ⟨⟨0, 1, -1⟩, by decide,
        by simp only [Hex.add, Hex.mk.injEq]; omega⟩
    · exact ⟨⟨-1, 1, 0⟩, by decide,
        by simp only [Hex.add, Hex.mk.injEq]; omega⟩
    · exact ⟨⟨-1, 0, 1⟩, by decide,
        by simp only [Hex.add, Hex.mk.injEq]; omega⟩
    · exact ⟨⟨0, -1, 1⟩, by decide,
        by simp only [Hex.add, Hex.mk.injEq]; omega⟩
  · rintro ⟨dd, hd, rfl⟩
    unfold areHexesAdjacent Hex.add
    fin_cases hd <;> simp

theorem directions_neg_closed {d : Hex} (hd : d ∈ hexDirections) :
    (⟨-d.q, -d.r, -d.s⟩ : Hex) ∈ hexDirections := by
  fin_cases hd <;> decide

/-- Mutual neighbors of `h` and `h.add d`, unfolded through
cancellation: a hex is a mutual neighbor iff it is `h.add x` for a
direction `x` such that `x` minus `d` is again a direction. -/
theorem mem_mutualNeighbors_add {h d z : Hex} :
    z ∈ mutualNeighbors h (h.add d) ↔
      ∃ x ∈ hexDirections,
        (⟨x.q - d.q, x.r - d.r, x.s - d.s⟩ : Hex) ∈ hexDirections ∧
        z = h.add x := by
  unfold mutualNeighbors
  simp only [Finset.mem_inter, List.mem_toFinset, mem_adjacentHexes]
  constructor
  · rintro ⟨⟨x, hx, rfl⟩, ⟨y, hy, hxy⟩⟩
    refine ⟨x, hx, ?_, rfl⟩
    have : x = (⟨d.q + y.q, d.r + y.r, d.s + y.s⟩ : Hex) := by
      apply Hex.add_left_cancel (h := h)
      simpa [Hex.add, add_assoc] using hxy
    subst this
    simpa using hy
  · rintro ⟨x, hx, hxd, rfl⟩
    refine ⟨⟨x, hx, rfl⟩, ⟨⟨x.q - d.q, x.r - d.r, x.s - d.s⟩, hxd, ?_⟩⟩
    simp only [Hex.add, Hex.mk.injEq]
    constructor
    · omega
    constructor
    · omega
    · omega

/-! ## Claim C8 -/

/-- C8: constructing a `HexCoordinate` succeeds exactly when
q + r + s = 0 (otherwise the validator rejects), and every
successfully constructed value satisfies q + r + s = 0. -/
theorem hexCoordinate_construction_iff (q r s : Int) :
    ((mkHexCoordinate q r s).isSome ↔ q + r + s = 0) ∧
    (∀ h, mkHexCoordinate q r s = some h →
      h.q + h.r + h.s = 0 ∧ h = ⟨q, r, s⟩) := by
  constructor
  · unfold mkHexCoordinate
    split <;> simp_all
  · intro h hmk
    unfold mkHexCoordinate at hmk
    split at hmk
    · cases hmk
      constructor
      · assumption
      · rfl
    · cases hmk

/-- Witness for C8 at the concrete triples (1,2,-3) and (1,1,1). -/
theorem hexCoordinate_construction_iff_witness :
    (mkHexCoordinate 1 2 (-3)).isSome = true ∧
    ¬ (mkHexCoordinate 1 1 1).isSome = true ∧
    (1 : Int) + 2 + (-3) = 0 := by
  refine ⟨?_, ?_, by decide⟩
  · exact (hexCoordinate_construction_iff 1 2 (-3)).1.mpr (by decide)
  · intro hcontra
    have := (hexCoordinate_construction_iff 1 1 1).1.mp hcontra
    omega

/-! ## Claim C3 -/

/-- For a fixed direction `d` whose mutual-neighbor offsets are
exactly `x1` and `x2`, the mutual-neighbor set of `h` and `h.add d`
is the two-element set `{h.add x1, h.add x2}`. -/
theorem mutual_pair (h d x1 x2 : Hex)
    (hd : ∀ x ∈ hexDirections,
      ((⟨x.q - d.q, x.r - d.r, x.s - d.s⟩ : Hex) ∈ hexDirections ↔
        (x = x1 ∨ x = x2)))
    (hx1 : x1 ∈ hexDirections) (hx2 : x2 ∈ hexDirections) (hne : x1 ≠ x2) :
    mutualNeighbors h (h.add d) = {h.add x1, h.add x2} ∧
      h.add x1 ≠ h.add x2 := by
  constructor
  · apply Finset.ext
    intro z
    rw [mem_mutualNeighbors_add]
    simp only [Finset.mem_insert, Finset.mem_singleton]
    constructor
    · rintro ⟨x, hx, hxd, rfl⟩
      rcases (hd x hx).mp hxd with rfl | rfl
      · exact Or.inl rfl
      · exact Or.inr rfl
    · rintro (rfl | rfl)
      · exact ⟨x1, hx1, (hd x1 hx1).mpr (Or.inl rfl), rfl⟩
      · exact ⟨x2, hx2, (hd x2 hx2).mpr (Or.inr rfl), rfl⟩
  · intro hcontra
    exact hne (Hex.add_left_cancel hcontra)

/-- Core of C3 once the mutual-neighbor pair is identified: the gate
test returns `some false` precisely when both mutual neighbors are
occupied, `some true` otherwise. -/
theorem canSlide_pair (h1 t : Hex) (occ : Finset Hex) (m1 m2 : Hex)
    (hadj : areHexesAdjacent h1 t = true)
    (hset : mutualNeighbors h1 t = {m1, m2}) (hne : m1 ≠ m2) :
    (canSlideToAdjacent h1 t occ = some false ↔ (m1 ∈ occ ∧ m2 ∈ occ)) ∧
    (canSlideToAdjacent h1 t occ = some true ↔ ¬ (m1 ∈ occ ∧ m2 ∈ occ)) := by
  have hcard : ((mutualNeighbors h1 t) ∩ occ).card ≥ 2 ↔ (m1 ∈ occ ∧ m2 ∈ occ) := by
    rw [hset]
    by_cases hm1 : m1 ∈ occ <;> by_cases hm2 : m2 ∈ occ
    · rw [Finset.insert_inter_of_mem hm1, Finset.singleton_inter_of_mem hm2]
      simp [Finset.card_insert_of_not_mem, Finset.mem_singleton, hne, hm1, hm2]
    · rw [Finset.insert_inter_of_mem hm1, Finset.singleton_inter_of_not_mem hm2]
      simp [hm1, hm2]
    · rw [Finset.insert_inter_of_not_mem hm1, Finset.singleton_inter_of_mem hm2]
      simp [hm1, hm2]
    · rw [Finset.insert_inter_of_not_mem hm1, Finset.singleton_inter_of_not_mem hm2]
      simp [hm1, hm2]
  unfold canSlideToAdjacent
  rw [hadj]
  simp only [Bool.true_eq_false, not_true_eq_false, if_false, ite_not]
  constructor
  · constructor
    · intro hres
      split at hres
      · exact hcard.mp (by assumption)
      · cases hres
    · intro hmem
      rw [if_pos (hcard.mpr hmem)]
  · constructor
    · intro hres
      split at hres
      · cases hres
      · intro hmem
        exact absurd (hcard.mpr hmem) (by assumption)
    · intro hmem
      rw [if_neg (fun hc => hmem (hcard.mp hc))]

/-- C3: for valid adjacent hexes, `can_slide_to_adjacent` returns
false exactly when both of the two mutual neighbors of the pair are
occupied and true otherwise; for non-adjacent hexes it raises
(`none`). -/
theorem canSlide_gate_spec (h1 h2 : Hex) (occ : Finset Hex)
    (hv1 : h1.isValid) (hv2 : h2.isValid) :
    (areHexesAdjacent h1 h2 = true →
      ∃ m1 m2, m1 ≠ m2 ∧ mutualNeighbors h1 h2 = {m1, m2} ∧
        (canSlideToAdjacent h1 h2 occ = some false ↔ (m1 ∈ occ ∧ m2 ∈ occ)) ∧
        (canSlideToAdjacent h1 h2 occ = some true ↔ ¬ (m1 ∈ occ ∧ m2 ∈ occ))) ∧
    (areHexesAdjacent h1 h2 = false → canSlideToAdjacent h1 h2 occ = none) := by
  constructor
  · intro hadj
    obtain ⟨d, hd, rfl⟩ := (adjacent_iff_direction hv1 hv2).mp hadj
    fin_cases hd
    · have hp := mutual_pair h1 ⟨1, -1, 0⟩ ⟨1, 0, -1⟩ ⟨0, -1, 1⟩
        (by decide) (by decide) (by decide) (by decide)
      exact ⟨_, _, hp.2, hp.1, canSlide_pair _ _ occ _ _ hadj hp.1 hp.2⟩
    · have hp := mutual_pair h1 ⟨1, 0, -1⟩ ⟨1, -1, 0⟩ ⟨0, 1, -1⟩
        (by decide) (by decide) (by decide) (by decide)
      exact ⟨_, _, hp.2, hp.1, canSlide_pair _ _ occ _ _ hadj hp.1 hp.2⟩
    · have hp := mutual_pair h1 ⟨0, 1, -1⟩ ⟨1, 0, -1⟩ ⟨-1, 1, 0⟩
        (by decide) (by decide) (by decide) (by decide)
      exact ⟨_, _, hp.2, hp.1, canSlide_pair _ _ occ _ _ hadj hp.1 hp.2⟩
    · have hp := mutual_pair h1 ⟨-1, 1, 0⟩ ⟨0, 1, -1⟩ ⟨-1, 0, 1⟩
        (by decide) (by decide) (by decide) (by decide)
      exact ⟨_, _, hp.2, hp.1, canSlide_pair _ _ occ _ _ hadj hp.1 hp.2⟩
    · have hp := mutual_pair h1 ⟨-1, 0, 1⟩ ⟨-1, 1, 0⟩ ⟨0, -1, 1⟩
        (by decide) (by decide) (by decide) (by decide)
      exact ⟨_, _, hp.2, hp.1, canSlide_pair _ _ occ _ _ hadj hp.1 hp.2⟩
    · have hp := mutual_pair h1 ⟨0, -1, 1⟩ ⟨-1, 0, 1⟩ ⟨1, -1, 0⟩
        (by decide) (by decide) (by decide) (by decide)
      exact ⟨_, _, hp.2, hp.1, canSlide_pair _ _ occ _ _ hadj hp.1 hp.2⟩
  · intro hnadj
    unfold canSlideToAdjacent
    rw [hnadj]
    simp

/-! ## Claim C1 -/

/-- C1 (failing input): on the connected two-piece board `exC1State`,
the queen's slide from (1,-1,0) to (2,-2,0) is accepted by
`apply_turn` (validation does not raise), yet `hive_stays_connected`
over the entire resulting board with no piece excluded is false: the
connectivity check is run only at the source position, so the board
fractures.  This contradicts the claim that every accepted move leaves
the hive connected. -/
theorem acceptedMove_disconnects_hive :
    hiveConnectedAll exC1Game.gameState = true ∧
    exceptOk (applyTurn exC1Game exC1Turn).2 = true ∧
    hiveConnectedAll (applyTurn exC1Game exC1Turn).1.gameState = false := by
  refine ⟨by decide, by decide, by decide⟩

/-! ## Claim C6 -/

/-- C6 (failing input): on the stacked board `exC6State` (ant "a" at
ground level, beetle "b" at z-level 1, both at the origin), excluding
"a": with `ground_level_only = False` the source includes only
z-level-0 pieces, returning the empty set although the origin is still
occupied by the stacked beetle; with `ground_level_only = True` it
includes every on-board piece, returning the origin although no
ground-level piece other than "a" occupies it.  The boolean's effect
is inverted relative to the claim (and to the parameter's name and the
call sites' intent). -/
theorem getOccupiedSpaces_flag_inverted :
    getOccupiedSpacesM exC6State (some "a") false = ∅ ∧
    getOccupiedSpacesM exC6State (some "a") true = {⟨0, 0, 0⟩} := by
  refine ⟨by decide, by decide⟩

/-! ## Claim C2 -/

/-- C2 (counterexample): in the double-surround state `exC2State` the
black queen is on the board with all 6 adjacent hexes occupied, yet
`check_win_condition` returns black, not white: the white queen is
checked first and its surround short-circuits the call.  The claim
that a surrounded black queen yields winner white is false in this
state. -/
theorem doubleSurround_black_not_white :
    queenSurroundedCode exC2State .black = true ∧
    checkWinCondition exC2State = some .black ∧
    ¬ checkWinCondition exC2State = some .white := by
  refine ⟨by decide, by decide, by decide⟩

/-- The code-side surround test agrees with the claim-side predicate
`queenSurroundedP`. -/
theorem queenSurroundedCode_iff (gs : GameState) (team : Team) :
    queenSurroundedCode gs team = true ↔ queenSurroundedP gs team := by
  unfold queenSurroundedCode queenSurroundedP
  cases hfind : (playerPieces gs team).find? (fun x => x.2.kind = .queenbee) with
  | none => simp
  | some e =>
    simp only [Option.some.injEq, exists_eq_left']
    by_cases hloc : e.2.location = .board
    · cases hc : e.2.hexCoordinates with
      | none => simp [hloc, hc]
      | some c =>
        simp [hloc, hc, List.all_eq_true, List.mem_toFinset]
    · simp [hloc]

/-- C2 (amended): `check_win_condition` checks the white queen first:
black wins when white's queen is on the board and fully surrounded
(even if black's queen is also surrounded); otherwise white wins when
black's queen is on the board and fully surrounded; otherwise there is
no winner.  With at most one queen surrounded this agrees with the
original claim. -/
theorem checkWin_priority (gs : GameState) :
    (checkWinCondition gs = some Team.black ↔ queenSurroundedP gs .white) ∧
    (checkWinCondition gs = some Team.white ↔
      (¬ queenSurroundedP gs .white ∧ queenSurroundedP gs .black)) ∧
    (checkWinCondition gs = none ↔
      (¬ queenSurroundedP gs .white ∧ ¬ queenSurroundedP gs .black)) := by
  have hw := queenSurroundedCode_iff gs .white
  have hb := queenSurroundedCode_iff gs .black
  unfold checkWinCondition
  cases hcw : queenSurroundedCode gs .white <;>
    cases hcb : queenSurroundedCode gs .black <;>
      simp_all

/-! ## Claim C10 -/

/-- C10: `apply_turn` is atomic on rejection: if validation of a place
or move turn raises, the error propagates and the returned game (state
and history, hence turn counter, current team, board maps, every
piece's fields) is exactly the input game. -/
theorem applyTurn_atomic (g : Game) (t : Turn) (e : PErr) :
    (t.actionType = .place → validatePlacement t g.gameState = .error e →
      applyTurn g t = (g, .error e)) ∧
    (t.actionType = .move → validateMovement t g.gameState = .error e →
      applyTurn g t = (g, .error e)) := by
  constructor
  · intro hact hval
    unfold applyTurn
    rw [hact, hval]
  · intro hact hval
    unfold applyTurn
    rw [hact, hval]

/-- Witness for C10: the placement of `exC10Turn` targets a hex away
from the hive and is rejected; `apply_turn` returns the unchanged game
with the error. -/
theorem applyTurn_atomic_witness :
    exC10Turn.actionType = ActionType.place ∧
    validatePlacement exC10Turn exC1Game.gameState =
      Except.error PErr.notAdjacentToHive ∧
    applyTurn exC1Game exC10Turn =
      (exC1Game, Except.error PErr.notAdjacentToHive) := by
  refine ⟨rfl, by decide, ?_⟩
  exact (applyTurn_atomic exC1Game exC10Turn PErr.notAdjacentToHive).1
    rfl (by decide)

/-- Witness for C3: the adjacent pair (0,0,0)-(1,-1,0) with both
mutual neighbors (1,0,-1) and (0,-1,1) occupied blocks the slide. -/
theorem canSlide_gate_spec_witness :
    (⟨0, 0, 0⟩ : Hex).isValid ∧ (⟨1, -1, 0⟩ : Hex).isValid ∧
    areHexesAdjacent ⟨0, 0, 0⟩ ⟨1, -1, 0⟩ = true ∧
    (∃ m1 m2, m1 ≠ m2 ∧ mutualNeighbors ⟨0, 0, 0⟩ ⟨1, -1, 0⟩ = {m1, m2} ∧
      (canSlideToAdjacent ⟨0, 0, 0⟩ ⟨1, -1, 0⟩ {⟨1, 0, -1⟩, ⟨0, -1, 1⟩} = some false ↔
        (m1 ∈ ({⟨1, 0, -1⟩, ⟨0, -1, 1⟩} : Finset Hex) ∧
         m2 ∈ ({⟨1, 0, -1⟩, ⟨0, -1, 1⟩} : Finset Hex))) ∧
      (canSlideToAdjacent ⟨0, 0, 0⟩ ⟨1, -1, 0⟩ {⟨1, 0, -1⟩, ⟨0, -1, 1⟩} = some true ↔
        ¬ (m1 ∈ ({⟨1, 0, -1⟩, ⟨0, -1, 1⟩} : Finset Hex) ∧
           m2 ∈ ({⟨1, 0, -1⟩, ⟨0, -1, 1⟩} : Finset Hex)))) := by
  refine ⟨by decide, by decide, by decide, ?_⟩
  exact (canSlide_gate_spec ⟨0, 0, 0⟩ ⟨1, -1, 0⟩ {⟨1, 0, -1⟩, ⟨0, -1, 1⟩}
    (by decide) (by decide)).1 (by decide)

/-! ## Claim C5 -/

theorem rayCell_zero (base d : Hex) : rayCell base d 0 = base := by
  simp [rayCell]

theorem rayCell_succ_shift (base d : Hex) (j : Nat) :
    rayCell (base.add d) d j = rayCell base d (j + 1) := by
  simp only [rayCell, Hex.add, Hex.mk.injEq]
  refine ⟨?_, ?_, ?_⟩ <;> push_cast <;> ring

/-- The `while` scan of the grasshopper ray: if the first `n` cells
are occupied and cell `n` is not, the scan lands on cell `n` (given
enough fuel). -/
theorem rayScan_finds (occ : Finset Hex) (d : Hex) :
    ∀ (n fuel : Nat) (base : Hex), n < fuel →
      (∀ j, j < n → rayCell base d j ∈ occ) →
      rayCell base d n ∉ occ →
      rayScan occ d fuel base = some (rayCell base d n) := by
  intro n
  induction n with
  | zero =>
    intro fuel base hf hall hout
    match fuel with
    | 0 => omega
    | fuel + 1 =>
      rw [rayCell_zero] at hout
      unfold rayScan
      rw [if_neg hout, rayCell_zero]
  | succ n ih =>
    intro fuel base hf hall hout
    match fuel with
    | 0 => omega
    | fuel + 1 =>
      have hbase : base ∈ occ := by
        have := hall 0 (Nat.succ_pos n)
        rwa [rayCell_zero] at this
      unfold rayScan
      rw [if_pos hbase]
      have hrec := ih fuel (base.add d) (by omega)
        (fun j hj => by
          rw [rayCell_succ_shift]
          exact hall (j + 1) (by omega))
        (by rw [rayCell_succ_shift]; exact hout)
      rw [hrec, rayCell_succ_shift]

theorem rayCell_injective (base d : Hex) (hd : d ∈ hexDirections) :
    ∀ n m : Nat, rayCell base d n = rayCell base d m → n = m := by
  intro n m h
  fin_cases hd <;> (simp only [rayCell, Hex.mk.injEq] at h; omega)

/-- Pigeonhole: a straight ray cannot stay inside the finite occupied
set for more than `|occ|` consecutive cells. -/
theorem exists_ray_escape (occ : Finset Hex) (d : Hex)
    (hd : d ∈ hexDirections) (base : Hex) :
    ∃ n, n ≤ occ.card ∧ rayCell base d n ∉ occ := by
  by_contra hcon
  push_neg at hcon
  have hsub : (Finset.range (occ.card + 1)).image
      (fun n => rayCell base d n) ⊆ occ := by
    intro x hx
    rw [Finset.mem_image] at hx
    obtain ⟨n, hn, rfl⟩ := hx
    rw [Finset.mem_range] at hn
    exact hcon n (by omega)
  have hcard := Finset.card_le_card hsub
  rw [Finset.card_image_of_injOn
    (fun a _ b _ hab => rayCell_injective base d hd a b hab),
    Finset.card_range] at hcard
  omega

/-- C5: for an on-board, unpinned, hive-free grasshopper and each of
the 6 directions: if the immediate neighbor in direction `d` is
occupied (grasshopper excluded), the first unoccupied hex straight
along `d` is produced for that direction and belongs to the legal
moves; if the immediate neighbor is unoccupied, the direction yields
no move. -/
theorem grasshopperMoves_spec (gs : GameState) (pid : String) (p : GamePiece)
    (pc : Hex) (d : Hex)
    (hloc : p.location = Location.board) (hpin : isPinned p = false)
    (hconn : hiveStaysConnected (some pid) gs = true)
    (hcoords : p.hexCoordinates = some pc) (hd : d ∈ hexDirections) :
    (pc.add d ∈ getOccupiedSpacesM gs (some pid) true →
      ∃ k : Nat,
        (∀ j : Nat, j < k →
          rayCell (pc.add d) d j ∈ getOccupiedSpacesM gs (some pid) true) ∧
        rayCell (pc.add d) d k ∉ getOccupiedSpacesM gs (some pid) true ∧
        grasshopperDirMove (getOccupiedSpacesM gs (some pid) true) pc d =
          some (rayCell (pc.add d) d k) ∧
        rayCell (pc.add d) d k ∈ grasshopperMoves gs pid p) ∧
    (pc.add d ∉ getOccupiedSpacesM gs (some pid) true →
      grasshopperDirMove (getOccupiedSpacesM gs (some pid) true) pc d =
        none) := by
  constructor
  · intro himm
    obtain ⟨n, hn, hout⟩ :=
      exists_ray_escape (getOccupiedSpacesM gs (some pid) true) d hd (pc.add d)
    have hex : ∃ m,
        rayCell (pc.add d) d m ∉ getOccupiedSpacesM gs (some pid) true :=
      ⟨n, hout⟩
    refine ⟨Nat.find hex, ?_, Nat.find_spec hex, ?_, ?_⟩
    · intro j hj
      have := Nat.find_min hex hj
      simpa using this
    · have hklen : Nat.find hex ≤ n := Nat.find_min' hex hout
      unfold grasshopperDirMove
      rw [if_pos himm]
      exact rayScan_finds _ d (Nat.find hex) _ (pc.add d) (by omega)
        (fun j hj => by
          have := Nat.find_min hex hj
          simpa using this)
        (Nat.find_spec hex)
    · have hklen : Nat.find hex ≤ n := Nat.find_min' hex hout
      have hdm : grasshopperDirMove (getOccupiedSpacesM gs (some pid) true)
          pc d = some (rayCell (pc.add d) d (Nat.find hex)) := by
        unfold grasshopperDirMove
        rw [if_pos himm]
        exact rayScan_finds _ d (Nat.find hex) _ (pc.add d) (by omega)
          (fun j hj => by
            have := Nat.find_min hex hj
            simpa using this)
          (Nat.find_spec hex)
      unfold grasshopperMoves
      rw [if_neg (by simp [hloc]), if_neg (by simp [hpin]),
        if_neg (by simp [hconn]), hcoords]
      simp only [List.mem_filterMap]
      exact ⟨d, hd, hdm⟩
  · intro himm
    unfold grasshopperDirMove
    rw [if_neg himm]

/-- Witness for C5 on `exC5State`: jumping in direction (1,-1,0) over
the two ants. -/
theorem grasshopperMoves_spec_witness :
    exGrasshopper.location = Location.board ∧
    isPinned exGrasshopper = false ∧
    hiveStaysConnected (some "g") exC5State = true ∧
    exGrasshopper.hexCoordinates = some ⟨0, 0, 0⟩ ∧
    (⟨1, -1, 0⟩ : Hex) ∈ hexDirections ∧
    (∃ k : Nat,
      (∀ j : Nat, j < k →
        rayCell (Hex.add ⟨0, 0, 0⟩ ⟨1, -1, 0⟩) ⟨1, -1, 0⟩ j ∈
          getOccupiedSpacesM exC5State (some "g") true) ∧
      rayCell (Hex.add ⟨0, 0, 0⟩ ⟨1, -1, 0⟩) ⟨1, -1, 0⟩ k ∉
        getOccupiedSpacesM exC5State (some "g") true ∧
      grasshopperDirMove (getOccupiedSpacesM exC5State (some "g") true)
        ⟨0, 0, 0⟩ ⟨1, -1, 0⟩ =
        some (rayCell (Hex.add ⟨0, 0, 0⟩ ⟨1, -1, 0⟩) ⟨1, -1, 0⟩ k) ∧
      rayCell (Hex.add ⟨0, 0, 0⟩ ⟨1, -1, 0⟩) ⟨1, -1, 0⟩ k ∈
        grasshopperMoves exC5State "g" exGrasshopper) := by
  refine ⟨rfl, rfl, by decide, rfl, by decide, ?_⟩
  exact (grasshopperMoves_spec exC5State "g" exGrasshopper ⟨0, 0, 0⟩
    ⟨1, -1, 0⟩ rfl rfl (by decide) rfl (by decide)).1 (by decide)

/-! ## Claim C7 -/

/-- Helper: `validatePlacementFinal` can only fail with piece-existence,
location or queen-deadline errors, never with the two adjacency
errors. -/
theorem final_no_adjacency_error (t1 : Turn) (gs : GameState) :
    ¬ validatePlacementFinal t1 gs = .error .notAdjacentToOwn ∧
    ¬ validatePlacementFinal t1 gs = .error .adjacentToOpponent := by
  unfold validatePlacementFinal
  constructor <;> intro hcontra <;> (repeat' split at hcontra) <;> simp_all

theorem core_notOwn_errors (t1 : Turn) (gs : GameState) (tc : Hex)
    (hturn : gs.turn > 1) (htc : t1.targetCoordinates = some tc)
    (hown : tc ∉ playerAdjacent gs t1.player) :
    exceptOk (validatePlacementCore t1 gs) = false := by
  unfold validatePlacementCore
  rw [if_neg (by omega : ¬ gs.turn = 0)]
  simp only [htc]
  by_cases h1 : ((adjacentHexes tc).toFinset ∩
      (getOccupiedSpacesGS gs).toFinset).card = 0
  · rw [if_pos h1]; rfl
  · rw [if_neg h1]
    by_cases h2 : tc ∈ (getOccupiedSpacesGS gs).toFinset
    · rw [if_pos h2]; rfl
    · rw [if_neg h2, if_pos hturn, if_pos hown]
      rfl

theorem core_opp_errors (t1 : Turn) (gs : GameState) (tc : Hex)
    (hturn : gs.turn > 1) (htc : t1.targetCoordinates = some tc)
    (hopp : tc ∈ playerAdjacent gs (opponent t1.player)) :
    exceptOk (validatePlacementCore t1 gs) = false := by
  unfold validatePlacementCore
  rw [if_neg (by omega : ¬ gs.turn = 0)]
  simp only [htc]
  by_cases h1 : ((adjacentHexes tc).toFinset ∩
      (getOccupiedSpacesGS gs).toFinset).card = 0
  · rw [if_pos h1]; rfl
  · rw [if_neg h1]
    by_cases h2 : tc ∈ (getOccupiedSpacesGS gs).toFinset
    · rw [if_pos h2]; rfl
    · rw [if_neg h2, if_pos hturn]
      by_cases hown : tc ∉ playerAdjacent gs t1.player
      · rw [if_pos hown]; rfl
      · rw [if_neg hown, if_pos hopp]; rfl

theorem core_bothOk_no_adjacency_error (t1 : Turn) (gs : GameState) (tc : Hex)
    (hturn : gs.turn > 1) (htc : t1.targetCoordinates = some tc)
    (hown : tc ∈ playerAdjacent gs t1.player)
    (hnopp : tc ∉ playerAdjacent gs (opponent t1.player)) :
    ¬ validatePlacementCore t1 gs = .error .notAdjacentToOwn ∧
    ¬ validatePlacementCore t1 gs = .error .adjacentToOpponent := by
  unfold validatePlacementCore
  rw [if_neg (by omega : ¬ gs.turn = 0)]
  simp only [htc]
  by_cases h1 : ((adjacentHexes tc).toFinset ∩
      (getOccupiedSpacesGS gs).toFinset).card = 0
  · rw [if_pos h1]
    exact ⟨by decide, by decide⟩
  · rw [if_neg h1]
    by_cases h2 : tc ∈ (getOccupiedSpacesGS gs).toFinset
    · rw [if_pos h2]
      exact ⟨by decide, by decide⟩
    · rw [if_neg h2, if_pos hturn, if_neg (not_not_intro hown), if_neg hnopp]
      exact final_no_adjacency_error t1 gs

/-- C7: past turn 1, a placement whose target is not adjacent to one
of the acting player's own on-board pieces is rejected, a placement
whose target is adjacent to any opponent on-board piece is rejected,
and a placement passing both conditions is never rejected on either of
those two grounds (though it may fail other checks). -/
theorem validatePlacement_adjacency_rules (t : Turn) (gs : GameState)
    (tc : Hex) (hturn : gs.turn > 1)
    (htc : t.targetCoordinates = some tc) :
    (tc ∉ playerAdjacent gs t.player →
      exceptOk (validatePlacement t gs) = false) ∧
    (tc ∈ playerAdjacent gs (opponent t.player) →
      exceptOk (validatePlacement t gs) = false) ∧
    (tc ∈ playerAdjacent gs t.player ∧
        tc ∉ playerAdjacent gs (opponent t.player) →
      ¬ validatePlacement t gs = .error .notAdjacentToOwn ∧
      ¬ validatePlacement t gs = .error .adjacentToOpponent) := by
  unfold validatePlacement
  cases hp : t.pieceId with
  | some pid =>
    simp only [hp]
    exact ⟨fun hown => core_notOwn_errors t gs tc hturn htc hown,
      fun hopp => core_opp_errors t gs tc hturn htc hopp,
      fun hb => core_bothOk_no_adjacency_error t gs tc hturn htc hb.1 hb.2⟩
  | none =>
    simp only [hp]
    cases hpt : t.pieceType with
    | none =>
      simp only [hpt]
      exact ⟨fun _ => rfl, fun _ => rfl, fun _ => ⟨by decide, by decide⟩⟩
    | some k =>
      simp only [hpt]
      cases hfind : (playerPieces gs t.player).find?
          (fun (e : String × GamePiece) =>
            e.2.kind = k ∧ e.2.location = Location.offboard) with
      | none =>
        simp only [hfind]
        exact ⟨fun _ => rfl, fun _ => rfl, fun _ => ⟨by decide, by decide⟩⟩
      | some e =>
        simp only [hfind]
        exact ⟨fun hown => core_notOwn_errors _ gs tc hturn htc hown,
          fun hopp => core_opp_errors _ gs tc hturn htc hopp,
          fun hb =>
            core_bothOk_no_adjacency_error _ gs tc hturn htc hb.1 hb.2⟩

/-- Witness for C7 on `exC7State`: white places the queen at (1,-1,0),
adjacent to white's own ant, not adjacent to the black ant; the
placement is not rejected on either adjacency ground (indeed it
validates). -/
theorem validatePlacement_adjacency_rules_witness :
    exC7State.turn > 1 ∧
    exC7Turn.targetCoordinates = some ⟨1, -1, 0⟩ ∧
    (⟨1, -1, 0⟩ : Hex) ∈ playerAdjacent exC7State exC7Turn.player ∧
    (⟨1, -1, 0⟩ : Hex) ∉ playerAdjacent exC7State (opponent exC7Turn.player) ∧
    (¬ validatePlacement exC7Turn exC7State =
      Except.error PErr.notAdjacentToOwn ∧
     ¬ validatePlacement exC7Turn exC7State =
      Except.error PErr.adjacentToOpponent) ∧
    exceptOk (validatePlacement exC7Turn exC7State) = true := by
  refine ⟨by decide, rfl, by decide, by decide, ?_, by decide⟩
  exact (validatePlacement_adjacency_rules exC7Turn exC7State ⟨1, -1, 0⟩
    (by decide) rfl).2.2 ⟨by decide, by decide⟩

/-! ## Claim C9 -/

/-- Past the queen deadline (player-turn-number > 3 with queen still
off-board), every placement by that player is rejected: each earlier
check either raises or falls through, and the final deadline check
raises. -/
theorem final_deadline_errors (t1 : Turn) (gs : GameState) (q : GamePiece)
    (hq : getQueen gs t1.player = some q)
    (hoff : q.location = Location.offboard)
    (hptn : (if t1.player = .white then gs.turn / 2
      else (gs.turn - 1) / 2) > 3) :
    exceptOk (validatePlacementFinal t1 gs) = false := by
  unfold validatePlacementFinal
  split
  · rfl
  · split
    · rfl
    · rename_i p _
      by_cases h6 : ¬ p.location = .offboard
      · rw [if_pos h6]; rfl
      · rw [if_neg h6]
        simp only [hq]
        have hne3 : ¬ ((if t1.player = .white then gs.turn / 2
            else (gs.turn - 1) / 2) = 3 ∧
            q.location = Location.offboard) := by
          intro hc
          have h31 := hc.1
          omega
        rw [if_neg hne3, if_pos ⟨hptn, hoff⟩]
        rfl

/-- Past the queen deadline (player-turn-number > 3 with queen still
off-board), every placement by that player is rejected: each earlier
check either raises or falls through, and the final deadline check
raises. -/
theorem core_deadline_errors (t1 : Turn) (gs : GameState) (q : GamePiece)
    (hq : getQueen gs t1.player = some q)
    (hoff : q.location = Location.offboard)
    (hturn0 : ¬ gs.turn = 0)
    (hptn : (if t1.player = .white then gs.turn / 2
      else (gs.turn - 1) / 2) > 3) :
    exceptOk (validatePlacementCore t1 gs) = false := by
  unfold validatePlacementCore
  rw [if_neg hturn0]
  split
  · rfl
  · rename_i tc heq
    by_cases h1 : ((adjacentHexes tc).toFinset ∩
        (getOccupiedSpacesGS gs).toFinset).card = 0
    · rw [if_pos h1]; rfl
    · rw [if_neg h1]
      by_cases h2 : tc ∈ (getOccupiedSpacesGS gs).toFinset
      · rw [if_pos h2]; rfl
      · rw [if_neg h2]
        by_cases h3 : gs.turn > 1
        · rw [if_pos h3]
          by_cases h4 : tc ∉ playerAdjacent gs t1.player
          · rw [if_pos h4]; rfl
          · rw [if_neg h4]
            by_cases h5 : tc ∈ playerAdjacent gs (opponent t1.player)
            · rw [if_pos h5]; rfl
            · rw [if_neg h5]
              exact final_deadline_errors t1 gs q hq hoff hptn
        · rw [if_neg h3]
          exact final_deadline_errors t1 gs q hq hoff hptn

/-- Past the deadline the full `validate_placement` (resolution
included) rejects every placement by that player. -/
theorem validatePlacement_deadline_errors (t : Turn) (gs : GameState)
    (q : GamePiece)
    (hq : getQueen gs t.player = some q)
    (hoff : q.location = Location.offboard)
    (hturn0 : ¬ gs.turn = 0)
    (hptn : (if t.player = .white then gs.turn / 2
      else (gs.turn - 1) / 2) > 3) :
    exceptOk (validatePlacement t gs) = false := by
  unfold validatePlacement
  cases hp : t.pieceId with
  | some pid =>
    simp only [hp]
    exact core_deadline_errors t gs q hq hoff hturn0 hptn
  | none =>
    simp only [hp]
    cases hpt : t.pieceType with
    | none => rfl
    | some k =>
      simp only [hpt]
      cases hfind : (playerPieces gs t.player).find?
          (fun (e : String × GamePiece) =>
            e.2.kind = k ∧ e.2.location = Location.offboard) with
      | none => rfl
      | some e =>
        simp only [hfind]
        exact core_deadline_errors _ gs q hq hoff hturn0 hptn

/-- C9: when the active player's placement-turn-number (turn // 2,
with white on even turns and black on odd turns) is at least 4 and the
active player's queen is off-board, `check_queen_placement_loss`
returns the opponent's team: every hypothetical queen placement it
tries is rejected, the geometrically legal ones by the past-deadline
rule. -/
theorem checkQueenPlacementLoss_deadline (gs : GameState) (q : GamePiece)
    (hq : getQueen gs gs.currentTeam = some q)
    (hoff : q.location = Location.offboard)
    (hturn : gs.turn / 2 >= 4)
    (hparity : gs.turn % 2 = (if gs.currentTeam = .white then 0 else 1)) :
    checkQueenPlacementLoss gs = some (opponent gs.currentTeam) := by
  unfold checkQueenPlacementLoss
  rw [if_neg (by omega : ¬ gs.turn / 2 < 4)]
  simp only [hq]
  rw [if_neg (not_not_intro hoff)]
  have hptn : (if gs.currentTeam = Team.white then gs.turn / 2
      else (gs.turn - 1) / 2) > 3 := by
    cases hteam : gs.currentTeam with
    | white =>
      rw [hteam] at hparity
      rw [if_pos rfl] at hparity ⊢
      omega
    | black =>
      rw [hteam] at hparity
      rw [if_neg (by decide)] at hparity ⊢
      omega
  have hfail : ¬ ∃ space ∈ getAvailableSpaces gs,
      exceptOk (validatePlacement
        { player := gs.currentTeam
          pieceId := none
          pieceType := some .queenbee
          actionType := .place
          targetCoordinates := some space } gs) = true := by
    rintro ⟨space, hsp, hok⟩
    have herr := validatePlacement_deadline_errors
      { player := gs.currentTeam
        pieceId := none
        pieceType := some .queenbee
        actionType := .place
        targetCoordinates := some space } gs q hq hoff
      (by omega) hptn
    rw [hok] at herr
    exact absurd herr (by decide)
  rw [if_neg (by simpa using hfail)]

/-- Witness for C9: `exC9State` (turn 8, white to move, white queen
off-board, one black ant at the origin) — white loses. -/
theorem checkQueenPlacementLoss_deadline_witness :
    getQueen exC9State Team.white = some exOffboardQueen ∧
    exOffboardQueen.location = Location.offboard ∧
    exC9State.turn / 2 ≥ 4 ∧
    exC9State.turn % 2 = 0 ∧
    checkQueenPlacementLoss exC9State = some Team.black := by
  refine ⟨by decide, rfl, by decide, by decide, ?_⟩
  exact checkQueenPlacementLoss_deadline exC9State exOffboardQueen
    (by decide) rfl (by decide) (by decide)

/-! ## Claim C4 -/

/-- Membership in a fold that unions a recursive result for every list
element passing a condition. -/
theorem mem_foldl_cond_union (l : List Hex) (C : Hex → Prop)
    [DecidablePred C] (R : Hex → Finset Hex) (init : Finset Hex) (x : Hex) :
    x ∈ l.foldl (fun acc adj => if C adj then acc ∪ R adj else acc) init ↔
      x ∈ init ∨ ∃ adj ∈ l, C adj ∧ x ∈ R adj := by
  induction l generalizing init with
  | nil => simp
  | cons h t ih =>
    simp only [List.foldl_cons]
    rw [ih]
    by_cases hc : C h
    · simp only [if_pos hc, Finset.mem_union, List.mem_cons]
      constructor
      · rintro ((hx | hx) | ⟨adj, ha, hca, hxa⟩)
        · exact Or.inl hx
        · exact Or.inr ⟨h, Or.inl rfl, hc, hx⟩
        · exact Or.inr ⟨adj, Or.inr ha, hca, hxa⟩
      · rintro (hx | ⟨adj, (rfl | ha), hca, hxa⟩)
        · exact Or.inl (Or.inl hx)
        · exact Or.inl (Or.inr hxa)
        · exact Or.inr ⟨adj, ha, hca, hxa⟩
    · simp only [if_neg hc, List.mem_cons]
      constructor
      · rintro (hx | ⟨adj, ha, hca, hxa⟩)
        · exact Or.inl hx
        · exact Or.inr ⟨adj, Or.inr ha, hca, hxa⟩
      · rintro (hx | ⟨adj, (rfl | ha), hca, hxa⟩)
        · exact Or.inl hx
        · exact absurd hca hc
        · exact Or.inr ⟨adj, ha, hca, hxa⟩

/-- The nested continue-style guards of the Spider DFS body are the
single conditional of `mem_foldl_cond_union`. -/
theorem spiderDfs_body_eq (occ : Finset Hex) (start : Hex) (fuel : Nat)
    (cur : Hex) (visited : List Hex) :
    (fun (acc : Finset Hex) adj =>
      if adj ∈ occ then acc
      else if adj ∈ visited then acc
      else if ¬ slideOkBool cur adj occ then acc
      else if ¬ hasNeighborB adj occ then acc
      else acc ∪ spiderDfs occ start fuel adj (adj :: visited)) =
    (fun (acc : Finset Hex) adj =>
      if (adj ∉ occ ∧ adj ∉ visited ∧ slideOkBool cur adj occ = true ∧
          hasNeighborB adj occ = true) then
        acc ∪ spiderDfs occ start fuel adj (adj :: visited)
      else acc) := by
  funext acc adj
  by_cases h1 : adj ∈ occ
  · simp [h1]
  · by_cases h2 : adj ∈ visited
    · simp [h1, h2]
    · by_cases h3 : slideOkBool cur adj occ = true
      · by_cases h4 : hasNeighborB adj occ = true
        · simp [h1, h2, h3, h4]
        · simp [h1, h2, h3, h4]
      · simp [h1, h2, h3]

/-- One level of the Spider DFS: the results at fuel `fuel + 1` from
`cur` are the union, over each admissible adjacent hex, of the results
at fuel `fuel` from that hex with the path extended. -/
theorem mem_spiderDfs_step (occ : Finset Hex) (start : Hex) (fuel : Nat)
    (cur : Hex) (visited : List Hex) (x : Hex) :
    x ∈ spiderDfs occ start (fuel + 1) cur visited ↔
      ∃ adj, adj ∈ adjacentHexes cur ∧ adj ∉ occ ∧ adj ∉ visited ∧
        slideOkBool cur adj occ = true ∧ hasNeighborB adj occ = true ∧
        x ∈ spiderDfs occ start fuel adj (adj :: visited) := by
  show x ∈ (adjacentHexes cur).foldl _ ∅ ↔ _
  rw [spiderDfs_body_eq occ start fuel cur visited,
    mem_foldl_cond_union (adjacentHexes cur)
      (fun adj => adj ∉ occ ∧ adj ∉ visited ∧
        slideOkBool cur adj occ = true ∧ hasNeighborB adj occ = true)
      (fun adj => spiderDfs occ start fuel adj (adj :: visited)) ∅ x]
  simp only [Finset.not_mem_empty, false_or]
  constructor
  · rintro ⟨adj, ha, ⟨hc1, hc2, hc3, hc4⟩, hx⟩
    exact ⟨adj, ha, hc1, hc2, hc3, hc4, hx⟩
  · rintro ⟨adj, ha, hc1, hc2, hc3, hc4, hx⟩
    exact ⟨adj, ha, ⟨hc1, hc2, hc3, hc4⟩, hx⟩

/-- Base of the Spider DFS: at fuel 0 the current hex is recorded
unless it is the start. -/
theorem mem_spiderDfs_zero (occ : Finset Hex) (start cur : Hex)
    (visited : List Hex) (x : Hex) :
    x ∈ spiderDfs occ start 0 cur visited ↔ ¬ cur = start ∧ x = cur := by
  unfold spiderDfs
  split
  · rename_i h
    simp [h]
  · rename_i h
    simp [h, eq_comm]

/-- C4: the legal-destination set of an on-board, unpinned,
hive-free Spider is exactly the set of endpoints of 3-step
non-self-intersecting slide paths from its origin in which every step
target is unoccupied (spider excluded), passes the slide-gate test
relative to the previous hex, and is adjacent to at least one occupied
hex.  A hex whose only such paths are shorter never satisfies
`spiderPath3`, so depth-1 and depth-2 hexes never appear. -/
theorem spiderMoves_path_characterization (gs : GameState) (pid : String)
    (p : GamePiece) (start : Hex)
    (hloc : p.location = Location.board) (hpin : isPinned p = false)
    (hconn : hiveStaysConnected (some pid) gs = true)
    (hcoords : p.hexCoordinates = some start) (x : Hex) :
    x ∈ spiderMoves gs pid p ↔
      spiderPath3 (getOccupiedSpacesM gs (some pid) true) start x := by
  unfold spiderMoves
  rw [if_neg (by simp [hloc]), if_neg (by simp [hpin]),
    if_neg (by simp [hconn])]
  simp only [hcoords]
  unfold spiderPath3 spiderStepOk
  rw [mem_spiderDfs_step]
  constructor
  · rintro ⟨a, ha1, ha2, ha3, ha4, ha5, hrest⟩
    rw [mem_spiderDfs_step] at hrest
    obtain ⟨b, hb1, hb2, hb3, hb4, hb5, hrest2⟩ := hrest
    rw [mem_spiderDfs_step] at hrest2
    obtain ⟨e, he1, he2, he3, he4, he5, hbase⟩ := hrest2
    rw [mem_spiderDfs_zero] at hbase
    obtain ⟨hne, rfl⟩ := hbase
    exact ⟨a, b, ⟨ha1, ha2, ha3, ha4, ha5⟩, ⟨hb1, hb2, hb3, hb4, hb5⟩,
      ⟨he1, he2, he3, he4, he5⟩⟩
  · rintro ⟨a, b, ⟨ha1, ha2, ha3, ha4, ha5⟩, ⟨hb1, hb2, hb3, hb4, hb5⟩,
      ⟨he1, he2, he3, he4, he5⟩⟩
    refine ⟨a, ha1, ha2, ha3, ha4, ha5, ?_⟩
    rw [mem_spiderDfs_step]
    refine ⟨b, hb1, hb2, hb3, hb4, hb5, ?_⟩
    rw [mem_spiderDfs_step]
    refine ⟨x, he1, he2, he3, he4, he5, ?_⟩
    rw [mem_spiderDfs_zero]
    refine ⟨fun hc => he3 ?_, rfl⟩
    rw [hc]
    simp

/-- Witness for C4 on `exC4State` (spider at the origin, one ant at
(1,-1,0)): instantiated at the hex (2,-1,-1). -/
theorem spiderMoves_path_characterization_witness :
    exSpider.location = Location.board ∧
    isPinned exSpider = false ∧
    hiveStaysConnected (some "s") exC4State = true ∧
    exSpider.hexCoordinates = some ⟨0, 0, 0⟩ ∧
    ((⟨2, -1, -1⟩ : Hex) ∈ spiderMoves exC4State "s" exSpider ↔
      spiderPath3 (getOccupiedSpacesM exC4State (some "s") true)
        ⟨0, 0, 0⟩ ⟨2, -1, -1⟩) := by
  refine ⟨rfl, rfl, by decide, rfl, ?_⟩
  exact spiderMoves_path_characterization exC4State "s" exSpider
    ⟨0, 0, 0⟩ rfl rfl (by decide) rfl ⟨2, -1, -1⟩

end HiveSim
